import Mathlib

/-!
# Query Genie frontend: a shallow embedding

A Lean model of the chat-dashboard logic of the Query-Genie single-page
application, translated from the TypeScript sources:

* `src/frontend/src/pages/DashboardPage.tsx` — `handleSendMessage`,
  `handleEditMessage`, `loadChatHistory`, `handleDeleteChat`,
  `saveChatToBackend`;
* `src/frontend/src/components/dashboard/ChatWindow.tsx` —
  `parseBackendResponse`, `lastUserMessageId`, the renderer dispatch;
* `src/frontend/src/components/dashboard/Sidebar.tsx` (and the
  `src/unnamed/part_007` copy) — the sidebar `handleDeleteChat`;
* `src/frontend/src/components/dashboard/DatabaseConnectionModal.tsx` and
  the enhanced variant `src/unnamed/part_002` — `handleConnect`;
* `src/frontend/src/components/dashboard/ChatInput.tsx` — `handleSubmit`.

Network calls are modelled by passing the outcome of the one `fetch` a
handler performs as an explicit argument; `Date.now()` is modelled by a
`now : Nat` argument (the code derives message ids from it).  Side effects
that matter to the specification (which transcript is stored, whether a
session save was issued, whether a request was sent, what was logged) are
returned as data.
-/

namespace QueryGenie

/-- The `type` tag of the frontend `Message` interface:
`'user' | 'assistant' | 'error'`. -/
inductive MsgType where
  | user
  | assistant
  | error
deriving DecidableEq, Repr

/-- `Message` of `DashboardPage.tsx` / `ChatWindow.tsx`: `{id, content, type,
role?, timestamp}`.  The timestamp never influences control flow, so it is
not carried. -/
structure Message where
  id : String
  content : String
  type : MsgType
  role : Option String
deriving DecidableEq, Repr

/-- `ChatWindow.tsx` / `handleEditMessage`:
`message.role === 'ai' ? 'assistant' : message.type`. -/
def effectiveType (m : Message) : MsgType :=
  if m.role = some "ai" then .assistant else m.type

/-- The whitespace class of JavaScript's `trim` and the leading skip of
`parseInt` (the common subset: ASCII whitespace and no-break space). -/
def jsWhitespaceChar (c : Char) : Bool :=
  c = ' ' ∨ c = '\t' ∨ c = '\n' ∨ c = '\r' ∨ c = '\x0b' ∨ c = '\x0c' ∨ c = '\xa0'

/-- JavaScript `s.trim()`: strip leading and trailing whitespace. -/
def jsTrim (s : String) : String :=
  String.mk (((s.toList.dropWhile jsWhitespaceChar).reverse.dropWhile jsWhitespaceChar).reverse)

/-- Outcome of the `POST /api/chat` fetch: a 2xx response carrying
`{success, response}` or `{success:false, error}` (the `payload` is
`data.response` when `success` and `data.error` otherwise), a non-2xx
status, or a network-level rejection. -/
inductive ChatOutcome where
  | ok (success : Bool) (payload : String)
  | httpFail (status : Nat)
  | netFail
deriving DecidableEq, Repr

/-- `data.success ? data.response : "Error: " + data.error` of the 2xx
branch of `handleSendMessage` / `handleEditMessage`. -/
def assistantContent : Bool → String → String
  | true, payload => payload
  | false, payload => "Error: " ++ payload

/-- The arguments of one `saveChatToBackend(chatId, title, messages,
isNewChat)` call. -/
structure SaveArgs where
  chatId : String
  title : String
  messages : List Message
  isNew : Bool
deriving DecidableEq, Repr

/-- What `handleSendMessage` leaves behind: the new `messages` state and
the session save it issued, if any. -/
structure SendResult where
  messages : List Message
  save : Option SaveArgs
deriving DecidableEq, Repr

/-- The error bubble appended when the database is not connected
(`DashboardPage.tsx`, `handleSendMessage`). -/
def dbErrorText : String :=
  "Database connection unavailable. Please connect to a database to get accurate results."

/-- The error bubble appended when the chat request throws
(`DashboardPage.tsx`, `handleSendMessage` catch branch). -/
def sendFailText : String :=
  "Sorry, an unexpected error occurred while communicating with the server."

/-- `message.length > 50 ? message.substring(0, 50).trim() + '...' :
message.trim()`. -/
def chatTitleOf (message : String) : String :=
  if message.length > 50 then jsTrim (message.take 50) ++ "..." else jsTrim message

/-- `handleSendMessage` of `DashboardPage.tsx` (lines 223–327).  `user` is
the authenticated user's id, `net` the outcome of the `POST /api/chat`
fetch (consulted only when a request is actually issued). -/
def handleSendMessage (user : Option Nat) (isConnected : Bool)
    (currentChatId : Option String) (messages : List Message)
    (message : String) (now : Nat) (net : ChatOutcome) : SendResult :=
  if message = "" ∨ jsTrim message = "" then ⟨messages, none⟩
  else if user.isNone then ⟨messages, none⟩
  else
    let chatTitle := chatTitleOf message
    let chatId := currentChatId.getD (toString now)
    let isNewChat := currentChatId.isNone
    let userMessage : Message := ⟨toString now, message, .user, some "user"⟩
    let newMessages := messages ++ [userMessage]
    if isConnected = false then
      let errorMessage : Message := ⟨toString (now + 1), dbErrorText, .error, none⟩
      let messagesWithError := newMessages ++ [errorMessage]
      ⟨messagesWithError, some ⟨chatId, chatTitle, messagesWithError, isNewChat⟩⟩
    else
      match net with
      | .ok success payload =>
          let assistantMessage : Message :=
            ⟨toString (now + 2), assistantContent success payload, .assistant, some "ai"⟩
          let finalMessages := newMessages ++ [assistantMessage]
          ⟨finalMessages, some ⟨chatId, chatTitle, finalMessages, isNewChat⟩⟩
      | .httpFail _ =>
          let errorMessage : Message := ⟨toString (now + 2), sendFailText, .error, none⟩
          let messagesWithError := newMessages ++ [errorMessage]
          ⟨messagesWithError, some ⟨chatId, chatTitle, messagesWithError, isNewChat⟩⟩
      | .netFail =>
          let errorMessage : Message := ⟨toString (now + 2), sendFailText, .error, none⟩
          let messagesWithError := newMessages ++ [errorMessage]
          ⟨messagesWithError, some ⟨chatId, chatTitle, messagesWithError, isNewChat⟩⟩

/-- What `handleEditMessage` leaves behind: the new `messages` state, the
save it issued (if any), and whether it sent a `POST /api/chat` request. -/
structure EditResult where
  messages : List Message
  save : Option SaveArgs
  requested : Bool
deriving DecidableEq, Repr

/-- The error bubble appended when the edit's chat request throws
(`handleEditMessage` catch branch). -/
def editFailText : String := "Failed to get response for edited message."

/-- `finalMessages[0]?.content.substring(0, 50) || 'Edited Chat'`. -/
def editTitle (finalMessages : List Message) : String :=
  match finalMessages.head? with
  | some m => if m.content.take 50 = "" then "Edited Chat" else m.content.take 50
  | none => "Edited Chat"

/-- `messages.findIndex(msg => msg.id === messageId)` together with
`messages.slice(0, messageIndex)` and `messages[messageIndex]`: the prefix
strictly before the first message with the given id, and that message. -/
def splitAtId (messageId : String) : List Message → Option (List Message × Message)
  | [] => none
  | m :: rest =>
      if m.id = messageId then some ([], m)
      else
        match splitAtId messageId rest with
        | some (pre, tgt) => some (m :: pre, tgt)
        | none => none

/-- `handleEditMessage` of `DashboardPage.tsx` (lines 330–440).  On the
2xx branch the transcript becomes `updatedMessages ++ [edited, assistant]`
and the chat is saved when `currentChatId` is set; on the throwing branch
the error bubble is appended to the optimistic state
`updatedMessages ++ [edited]` and no save is issued. -/
def handleEditMessage (user : Option Nat) (currentChatId : Option String)
    (messages : List Message) (messageId : String) (newContent : String)
    (now : Nat) (net : ChatOutcome) : EditResult :=
  if user.isNone then ⟨messages, none, false⟩
  else
    match splitAtId messageId messages with
    | none => ⟨messages, none, false⟩
    | some (updatedMessages, message) =>
        if effectiveType message ≠ .user then ⟨messages, none, false⟩
        else
          let editedMessage : Message :=
            { message with content := newContent, id := toString now }
          match net with
          | .ok success payload =>
              let assistantMessage : Message :=
                ⟨toString (now + 1), assistantContent success payload, .assistant, some "ai"⟩
              let finalMessages := updatedMessages ++ [editedMessage, assistantMessage]
              let save :=
                match currentChatId with
                | some cid => some ⟨cid, editTitle finalMessages, finalMessages, false⟩
                | none => none
              ⟨finalMessages, save, true⟩
          | .httpFail _ =>
              let errorMessage : Message := ⟨toString (now + 1), editFailText, .error, none⟩
              ⟨updatedMessages ++ [editedMessage, errorMessage], none, true⟩
          | .netFail =>
              let errorMessage : Message := ⟨toString (now + 1), editFailText, .error, none⟩
              ⟨updatedMessages ++ [editedMessage, errorMessage], none, true⟩

/-- The terminal message the edit turn obtains from the fresh
`POST /api/chat` outcome: the assistant message of the 2xx branch, the
error bubble otherwise. -/
def editTerminal (net : ChatOutcome) (now : Nat) : Message :=
  match net with
  | .ok success payload =>
      ⟨toString (now + 1), assistantContent success payload, .assistant, some "ai"⟩
  | .httpFail _ => ⟨toString (now + 1), editFailText, .error, none⟩
  | .netFail => ⟨toString (now + 1), editFailText, .error, none⟩

/-- `lastUserMessageId` of `ChatWindow.tsx` (lines 69–78): the id of the
last message whose effective type is `'user'`, scanning from the end. -/
def lastUserMessageId (messages : List Message) : Option String :=
  (messages.reverse.find? (fun m => decide (effectiveType m = .user))).map (fun m => m.id)

/-- The edit operation as the interface exposes it: `ChatWindow.tsx`
renders the edit button only on a message of effective type `'user'` whose
id is `lastUserMessageId` (lines 164–236), and `handleSaveEdit` forwards to
`onEditMessage` only when the edited content trims non-empty (lines
114–120); every other invocation leaves the page state untouched. -/
def uiEditMessage (user : Option Nat) (currentChatId : Option String)
    (messages : List Message) (messageId : String) (newContent : String)
    (now : Nat) (net : ChatOutcome) : EditResult :=
  match messages.find? (fun m => decide (m.id = messageId)) with
  | some m =>
      if effectiveType m = .user ∧ lastUserMessageId messages = some messageId
          ∧ jsTrim newContent ≠ "" then
        handleEditMessage user currentChatId messages messageId newContent now net
      else ⟨messages, none, false⟩
  | none => ⟨messages, none, false⟩

/-- A locally held chat-history entry (`ChatSession` of
`DashboardPage.tsx`), fields that influence control flow only. -/
structure ChatSessionL where
  id : String
  user_id : Option Int
  title : String
  messages : List Message
deriving DecidableEq, Repr

/-- Outcome of the `DELETE /api/chat-sessions/{id}` fetch: `response.ok`,
a non-ok status, or a network-level rejection. -/
inductive DeleteOutcome where
  | ok
  | httpFail (status : Nat)
  | netFail
deriving DecidableEq, Repr

/-- The page state `handleDeleteChat` of `DashboardPage.tsx` mutates. -/
structure DeleteState where
  chatHistory : List ChatSessionL
  currentChatId : Option String
  messages : List Message
deriving DecidableEq, Repr

/-- `handleDeleteChat` of `DashboardPage.tsx` (lines 529–572): on
`response.ok` the session is filtered out of `chatHistory` and, when it
was the current chat, the pointer and transcript are cleared; a non-ok
response or a network failure throws into the catch branch, which only
toasts and leaves the state unchanged. -/
def dashHandleDeleteChat (user : Option Nat) (st : DeleteState)
    (chatId : String) (outcome : DeleteOutcome) : DeleteState :=
  if user.isNone then st
  else
    match outcome with
    | .ok =>
        let history := st.chatHistory.filter (fun chat => decide (chat.id ≠ chatId))
        if st.currentChatId = some chatId then ⟨history, none, []⟩
        else ⟨history, st.currentChatId, st.messages⟩
    | .httpFail _ => st
    | .netFail => st

/-- The observable effects of the sidebar's `handleDeleteChat`
(`Sidebar.tsx` lines 89–133, identical in `src/unnamed/part_007`):
whether `onDeleteChat` was invoked (removing the entry from the visible
list), whether a `console.error` was emitted, and whether any user-facing
notification was shown.  The component imports no toast hook and renders
no error element from this handler, so `userNotified` is `false` on every
path: the only feedback channels are console logs. -/
structure SidebarDeleteResult where
  removedLocally : Bool
  consoleErrorLogged : Bool
  userNotified : Bool
deriving DecidableEq, Repr

/-- The sidebar `handleDeleteChat`: `response.ok` and 404 remove the entry;
403 logs `'Permission denied'` and keeps it; any other status or a network
failure logs an error and removes the entry anyway. -/
def sidebarHandleDeleteChat (userId : Option Int) (chatHistory : List ChatSessionL)
    (chatId : String) (outcome : DeleteOutcome) : SidebarDeleteResult :=
  if userId.isNone then ⟨false, true, false⟩
  else if (chatHistory.find? (fun chat => decide (chat.id = chatId))).isNone then
    ⟨false, true, false⟩
  else
    match outcome with
    | .ok => ⟨true, false, false⟩
    | .httpFail status =>
        if status = 404 then ⟨true, false, false⟩
        else if status = 403 then ⟨false, true, false⟩
        else ⟨true, true, false⟩
    | .netFail => ⟨true, true, false⟩

/-- The connection form's fields, all raw strings
(`ConnectionFormData`). -/
structure ConnectForm where
  host : String
  port : String
  user : String
  password : String
  database : String
deriving DecidableEq, Repr

/-- The body of the `POST /api/connect` request.  `port` is
`parseInt(formData.port, 10)`; `none` models `NaN` (which
`JSON.stringify` serialises as `null`). -/
structure ConnectPayload where
  host : String
  port : Option Int
  user : String
  password : String
  database : String
deriving DecidableEq, Repr

/-- Decimal value of a digit run. -/
def digitsVal (ds : List Char) : Nat :=
  ds.foldl (fun acc c => acc * 10 + (c.toNat - 48)) 0

/-- JavaScript `parseInt(s, 10)`: skip leading whitespace, read an
optional sign and then a maximal run of decimal digits, ignoring what
follows; `none` models `NaN` (no digit found). -/
def parseIntJS (s : String) : Option Int :=
  let cs := s.toList.dropWhile jsWhitespaceChar
  let signed : Int × List Char :=
    match cs with
    | '-' :: r => (-1, r)
    | '+' :: r => (1, r)
    | r => (1, r)
  let ds := signed.2.takeWhile Char.isDigit
  if ds.isEmpty then none else some (signed.1 * (digitsVal ds : Int))

/-- `handleConnect` of
`src/frontend/src/components/dashboard/DatabaseConnectionModal.tsx`
(lines 41–97), the variant `DashboardPage.tsx` imports: it validates only
that host, username and database name trim non-empty, and then sends
`parseInt(formData.port, 10)` with no range check.  `some payload` means
the `POST /api/connect` request is issued with that body; `none` means
validation failed locally and no request is made. -/
def modalHandleConnect (f : ConnectForm) : Option ConnectPayload :=
  if jsTrim f.host = "" ∨ jsTrim f.user = "" ∨ jsTrim f.database = "" then none
  else some ⟨f.host, parseIntJS f.port, f.user, f.password, f.database⟩

/-- `handleConnect` of the enhanced modal variant `src/unnamed/part_002`
(lines 55–130): host, username and database name must trim non-empty and
the port must parse to a number in 1–65535 before any request is sent. -/
def enhancedHandleConnect (f : ConnectForm) : Option ConnectPayload :=
  if jsTrim f.host = "" then none
  else if jsTrim f.user = "" then none
  else if jsTrim f.database = "" then none
  else
    match parseIntJS f.port with
    | none => none
    | some portNum =>
        if portNum < 1 ∨ portNum > 65535 then none
        else some ⟨jsTrim f.host, some portNum, jsTrim f.user, f.password, jsTrim f.database⟩

/-- A JSON value as `JSON.parse` produces it.  A number is kept exactly as
the pair of its decimal mantissa and power-of-ten exponent (the value is
`mant * 10 ^ exp`); object fields keep their textual order, later
duplicates included. -/
inductive Json where
  | null
  | bool (b : Bool)
  | num (mant exp : Int)
  | str (s : String)
  | arr (elems : List Json)
  | obj (fields : List (String × Json))

/-- `10 ^ n` over the integers, by structural recursion (kernel-reducible
on literals). -/
def pow10 : Nat → Int
  | 0 => 1
  | n + 1 => 10 * pow10 n

/-- Numeric equality `mant * 10 ^ exp = n` of a JSON number with an
integer, decided without leaving the integers. -/
def jnumEqInt (mant exp n : Int) : Bool :=
  if 0 ≤ exp then decide (mant * pow10 exp.toNat = n)
  else decide (mant = n * pow10 (-exp).toNat)

/-- Property read `o.key` on a parsed value: on an object the value of the
last binding of that key (later duplicate keys overwrite earlier ones, as
in a JavaScript object literal); `none` models `undefined`. -/
def Json.getField (j : Json) (key : String) : Option Json :=
  match j with
  | .obj fields =>
      (fields.reverse.find? (fun kv => decide (kv.1 = key))).map (fun kv => kv.2)
  | _ => none

/-- JavaScript truthiness of a parsed JSON value (`null`, `false`, `0` and
`""` are falsy; arrays and objects are always truthy). -/
def Json.truthy : Json → Bool
  | .null => false
  | .bool b => b
  | .num mant _ => decide (mant ≠ 0)
  | .str s => decide (s ≠ "")
  | .arr _ => true
  | .obj _ => true

/-- Strict equality of a parsed value with an integer literal
(`v === n`): true exactly on a number of that value. -/
def jsStrictEqNum (v : Json) (n : Int) : Bool :=
  match v with
  | .num mant exp => jnumEqInt mant exp n
  | _ => false

/-- Strict equality of a parsed value with a string literal
(`v === s`). -/
def jsStrictEqStr (v : Json) (s : String) : Bool :=
  match v with
  | .str t => decide (t = s)
  | _ => false

/-- `String(n)` for a parsed JSON number `mant * 10 ^ exp`.  A
non-negative exponent prints the exact integer as JavaScript prints it;
a negative exponent inserts the decimal point into the mantissa's digits
(an approximation of JavaScript's shortest-round-trip notation — it does
not strip trailing zeros; no claim depends on non-integral values). -/
def jsNumToString (mant exp : Int) : String :=
  if 0 ≤ exp then toString (mant * pow10 exp.toNat)
  else
    let digits := toString mant.natAbs
    let k := (-exp).toNat
    let sign := if mant < 0 then "-" else ""
    if k < digits.length then
      sign ++ digits.take (digits.length - k) ++ "." ++ digits.drop (digits.length - k)
    else
      sign ++ "0." ++ String.mk (List.replicate (k - digits.length) '0') ++ digits

mutual

/-- Template-literal interpolation of a parsed value (`String(v)`).
Arrays join their elements with commas, objects print as
`[object Object]`. -/
def Json.jsToString : Json → String
  | .null => "null"
  | .bool true => "true"
  | .bool false => "false"
  | .num mant exp => jsNumToString mant exp
  | .str s => s
  | .arr elems => String.intercalate "," (Json.jsToStringList elems)
  | .obj _ => "[object Object]"

/-- `String(v)` of every element of an array. -/
def Json.jsToStringList : List Json → List String
  | [] => []
  | j :: rest => j.jsToString :: Json.jsToStringList rest

end

/-! ### `JSON.parse`

A fuel-indexed recursive-descent parser over the character list, following
the JSON grammar `JSON.parse` accepts: optional whitespace around tokens,
`null` / `true` / `false`, double-quoted strings with the standard escape
set, numbers with optional sign, fraction and exponent, arrays and
objects.  `none` models the `SyntaxError` the engine throws on malformed
input.  (Lone `\uXXXX` surrogate halves are mapped through `Char.ofNat`'s
fallback rather than kept as raw UTF-16 units — no claim depends on
them.) -/

/-- The insignificant-whitespace characters of the JSON grammar. -/
def jsonSkipWs (cs : List Char) : List Char :=
  cs.dropWhile (fun c => c = ' ' ∨ c = '\t' ∨ c = '\n' ∨ c = '\r')

/-- Numeric value of a hexadecimal digit. -/
def hexVal (c : Char) : Option Nat :=
  if '0' ≤ c ∧ c ≤ '9' then some (c.toNat - 48)
  else if 'a' ≤ c ∧ c ≤ 'f' then some (c.toNat - 87)
  else if 'A' ≤ c ∧ c ≤ 'F' then some (c.toNat - 55)
  else none

/-- Body of a JSON string after the opening quote: the decoded text and
what follows the closing quote.  Unescaped control characters are
rejected, as `JSON.parse` rejects them. -/
def parseStringBody : Nat → List Char → List Char → Option (String × List Char)
  | 0, _, _ => none
  | _ + 1, [], _ => none
  | fuel + 1, c :: rest, acc =>
      if c = '"' then some (String.mk acc.reverse, rest)
      else if c = '\\' then
        match rest with
        | '"' :: r => parseStringBody fuel r ('"' :: acc)
        | '\\' :: r => parseStringBody fuel r ('\\' :: acc)
        | '/' :: r => parseStringBody fuel r ('/' :: acc)
        | 'b' :: r => parseStringBody fuel r (Char.ofNat 8 :: acc)
        | 'f' :: r => parseStringBody fuel r (Char.ofNat 12 :: acc)
        | 'n' :: r => parseStringBody fuel r ('\n' :: acc)
        | 'r' :: r => parseStringBody fuel r ('\r' :: acc)
        | 't' :: r => parseStringBody fuel r ('\t' :: acc)
        | 'u' :: h1 :: h2 :: h3 :: h4 :: r =>
            match hexVal h1, hexVal h2, hexVal h3, hexVal h4 with
            | some a, some b, some c, some d =>
                parseStringBody fuel r (Char.ofNat (((a * 16 + b) * 16 + c) * 16 + d) :: acc)
            | _, _, _, _ => none
        | _ => none
      else if c.toNat < 32 then none
      else parseStringBody fuel rest (c :: acc)

/-- A maximal run of decimal digits and what follows it. -/
def takeDigits (cs : List Char) : List Char × List Char :=
  (cs.takeWhile Char.isDigit, cs.dropWhile Char.isDigit)

/-- A JSON number starting at the head of the list: `-?(0|[1-9][0-9]*)`
with optional `.digits` fraction and optional `[eE][+-]?digits` exponent.
A malformed fraction or exponent is left unconsumed (the stray characters
then fail the caller's delimiter check, as the engine's one-token
lookahead does). -/
def parseNumberAt (cs : List Char) : Option ((Int × Int) × List Char) :=
  let signed : Bool × List Char :=
    match cs with
    | '-' :: r => (true, r)
    | r => (false, r)
  let intPart : Option (List Char × List Char) :=
    match signed.2 with
    | '0' :: r => some (['0'], r)
    | c :: _ =>
        if c.isDigit then some (takeDigits signed.2) else none
    | [] => none
  match intPart with
  | none => none
  | some (intDigits, afterInt) =>
      let frac : List Char × List Char :=
        match afterInt with
        | '.' :: r =>
            match takeDigits r with
            | ([], _) => ([], afterInt)
            | (ds, rest) => (ds, rest)
        | _ => ([], afterInt)
      let fracDigits := frac.1
      let afterFrac := frac.2
      let expPart : Int × List Char :=
        match afterFrac with
        | 'e' :: r =>
            match r with
            | '+' :: r2 =>
                match takeDigits r2 with
                | ([], _) => (0, afterFrac)
                | (ds, rest) => ((digitsVal ds : Int), rest)
            | '-' :: r2 =>
                match takeDigits r2 with
                | ([], _) => (0, afterFrac)
                | (ds, rest) => (-(digitsVal ds : Int), rest)
            | _ =>
                match takeDigits r with
                | ([], _) => (0, afterFrac)
                | (ds, rest) => ((digitsVal ds : Int), rest)
        | 'E' :: r =>
            match r with
            | '+' :: r2 =>
                match takeDigits r2 with
                | ([], _) => (0, afterFrac)
                | (ds, rest) => ((digitsVal ds : Int), rest)
            | '-' :: r2 =>
                match takeDigits r2 with
                | ([], _) => (0, afterFrac)
                | (ds, rest) => (-(digitsVal ds : Int), rest)
            | _ =>
                match takeDigits r with
                | ([], _) => (0, afterFrac)
                | (ds, rest) => ((digitsVal ds : Int), rest)
        | _ => (0, afterFrac)
      let mantissa : Int := (digitsVal (intDigits ++ fracDigits) : Int)
      let exponent : Int := expPart.1 - (fracDigits.length : Int)
      some ((if signed.1 then -mantissa else mantissa, exponent), expPart.2)

mutual

/-- A JSON value at the head of the list (leading whitespace allowed) and
what follows it. -/
def parseJsonValue : Nat → List Char → Option (Json × List Char)
  | 0, _ => none
  | fuel + 1, cs =>
      match jsonSkipWs cs with
      | 'n' :: 'u' :: 'l' :: 'l' :: rest => some (.null, rest)
      | 't' :: 'r' :: 'u' :: 'e' :: rest => some (.bool true, rest)
      | 'f' :: 'a' :: 'l' :: 's' :: 'e' :: rest => some (.bool false, rest)
      | '"' :: rest =>
          (parseStringBody fuel rest []).map (fun p => (.str p.1, p.2))
      | '[' :: rest =>
          match jsonSkipWs rest with
          | ']' :: rest2 => some (.arr [], rest2)
          | _ => parseJsonElements fuel rest []
      | '{' :: rest =>
          match jsonSkipWs rest with
          | '}' :: rest2 => some (.obj [], rest2)
          | _ => parseJsonMembers fuel rest []
      | rest => (parseNumberAt rest).map (fun p => (.num p.1.1 p.1.2, p.2))
termination_by structural fuel => fuel

/-- The elements of a non-empty array after its `[`. -/
def parseJsonElements : Nat → List Char → List Json → Option (Json × List Char)
  | 0, _, _ => none
  | fuel + 1, cs, acc =>
      match parseJsonValue fuel cs with
      | none => none
      | some (v, rest) =>
          match jsonSkipWs rest with
          | ',' :: rest2 => parseJsonElements fuel rest2 (acc ++ [v])
          | ']' :: rest2 => some (.arr (acc ++ [v]), rest2)
          | _ => none
termination_by structural fuel => fuel

/-- The members of a non-empty object after its `{`. -/
def parseJsonMembers : Nat → List Char → List (String × Json) → Option (Json × List Char)
  | 0, _, _ => none
  | fuel + 1, cs, acc =>
      match jsonSkipWs cs with
      | '"' :: rest =>
          match parseStringBody fuel rest [] with
          | none => none
          | some (key, rest2) =>
              match jsonSkipWs rest2 with
              | ':' :: rest3 =>
                  match parseJsonValue fuel rest3 with
                  | none => none
                  | some (v, rest4) =>
                      match jsonSkipWs rest4 with
                      | ',' :: rest5 => parseJsonMembers fuel rest5 (acc ++ [(key, v)])
                      | '}' :: rest5 => some (.obj (acc ++ [(key, v)]), rest5)
                      | _ => none
              | _ => none
      | _ => none
termination_by structural fuel => fuel

end

/-- `JSON.parse(s)`: the whole input must be one JSON value surrounded by
nothing but whitespace; `none` models the thrown `SyntaxError`.  The fuel
`2 * length + 4` strictly dominates the recursion depth (every two fuel
steps consume at least one character). -/
def jsonParse (s : String) : Option Json :=
  let cs := s.toList
  match parseJsonValue (2 * cs.length + 4) cs with
  | some (v, rest) => if jsonSkipWs rest = [] then some v else none
  | none => none

/-! ### The response grammar of `ChatWindow.tsx`

`parseBackendResponse` extracts the SQL fragment with
`content.match(/SQL:\s*%x60([^%x60]+)%x60/)` (the `%x60` stand for the
backtick delimiter here) and the JSON blob with
`content.match(/Output:\s*(\x7b.+\x7d)/s)`.  The two regexes are modelled
directly: a left-to-right scan for the leftmost position at which the
pattern matches, with the greedy semantics of the quantifiers. -/

/-- The regex class `\s` (the common subset: ASCII whitespace and
no-break space). -/
def jsRegexWs (c : Char) : Bool :=
  c = ' ' ∨ c = '\t' ∨ c = '\n' ∨ c = '\r' ∨ c = '\x0b' ∨ c = '\x0c' ∨ c = '\xa0'

/-- One attempt of `/SQL:\s*%x60([^%x60]+)%x60/` anchored at the head of
the list: the literal `SQL:`, a whitespace run, a backtick, a non-empty
run of non-backtick characters (the capture), and the closing backtick. -/
def sqlCaptureAt (cs : List Char) : Option String :=
  match cs with
  | 'S' :: 'Q' :: 'L' :: ':' :: rest =>
      match rest.dropWhile jsRegexWs with
      | c :: rest2 =>
          if c = '\x60' then
            let body := rest2.takeWhile (fun d => decide (d ≠ '\x60'))
            match rest2.dropWhile (fun d => decide (d ≠ '\x60')) with
            | [] => none
            | _ :: _ => if body = [] then none else some (String.mk body)
          else none
      | [] => none
  | _ => none

/-- The leftmost match of the SQL regex: try every start position from the
left. -/
def findSqlCapture : List Char → Option String
  | [] => none
  | c :: rest =>
      match sqlCaptureAt (c :: rest) with
      | some s => some s
      | none => findSqlCapture rest

/-- One attempt of `/Output:\s*(\x7b.+\x7d)/s` anchored at the head of the
list: the literal `Output:`, a whitespace run, an opening brace, then a
greedy `.+` (the `s` flag lets it cross newlines) and a closing brace —
so the capture runs to the last closing brace of the input and needs at
least one character between the braces. -/
def outputCaptureAt (cs : List Char) : Option (List Char) :=
  match cs with
  | 'O' :: 'u' :: 't' :: 'p' :: 'u' :: 't' :: ':' :: rest =>
      match rest.dropWhile jsRegexWs with
      | c :: tail =>
          if c = '{' then
            let trimmed := (tail.reverse.dropWhile (fun d => decide (d ≠ '}'))).reverse
            if 2 ≤ trimmed.length then some ('{' :: trimmed) else none
          else none
      | [] => none
  | _ => none

/-- The leftmost match of the Output regex. -/
def findOutputCapture : List Char → Option (List Char)
  | [] => none
  | c :: rest =>
      match outputCaptureAt (c :: rest) with
      | some capture => some capture
      | none => findOutputCapture rest

/-- The result of `parseBackendResponse`: `{sql, output}`. -/
structure ParsedResponse where
  sql : Option String
  output : Option Json

/-- `parseBackendResponse` of `ChatWindow.tsx` (lines 36–58): when the
Output regex matches and its capture parses as JSON, both the SQL capture
and the parsed payload are returned; when the capture fails to parse
(`JSON.parse` throws into the inner catch) or the regex does not match at
all, the fall-through returns `{sql: null, output: null}`. -/
def parseBackendResponse (content : String) : ParsedResponse :=
  let sqlMatch := findSqlCapture content.toList
  match findOutputCapture content.toList with
  | some capture =>
      match jsonParse (String.mk capture) with
      | some output => ⟨sqlMatch, some output⟩
      | none => ⟨none, none⟩
  | none => ⟨none, none⟩

/-- What the assistant branch of `ChatWindow` renders for one message. -/
inductive Rendered where
  | table (columns data : Json) (sql : Option String)
  | statusAlert (message : Option Json) (rowPhrase : Option String)
  | errorAlert (message : Option Json)
  | confirmation (table : Option Json)
  | raw (content : String)
  | blank

/-- The row-count phrase of the status alert:
`({affected_rows} row{affected_rows !== 1 ? 's' : ''})`. -/
def rowCountSuffix (v : Json) : String :=
  "(" ++ v.jsToString ++ " row" ++ (if jsStrictEqNum v 1 then "" else "s") ++ ")"

/-- The assistant-message renderer dispatch of `ChatWindow.tsx` (lines
267–342): a null parsed payload falls back to the raw content in a
`<pre>`; otherwise exactly the block whose `type` guard holds renders
(`select` additionally needs truthy `data` and `columns`), and an
unrecognised `type` renders none of the blocks. -/
def renderAssistant (content : String) : Rendered :=
  let parsed := parseBackendResponse content
  match parsed.output with
  | none => .raw content
  | some output =>
      match output.getField "type" with
      | some (.str t) =>
          if t = "select" then
            match output.getField "data", output.getField "columns" with
            | some d, some c =>
                if d.truthy && c.truthy then .table c d parsed.sql else .blank
            | _, _ => .blank
          else if t = "status" then
            .statusAlert (output.getField "message")
              ((output.getField "affected_rows").map rowCountSuffix)
          else if t = "error" then .errorAlert (output.getField "message")
          else if t = "confirmation_required" then .confirmation (output.getField "table")
          else .blank
      | _ => .blank

/-! ### `loadChatHistory` of `DashboardPage.tsx` (lines 59–150)

The backend rows arrive as parsed JSON.  The filter drops rows whose `id`
or `user_id` is falsy or whose `user_id` is not strictly equal to
`parseInt(user.id)`; the subsequent map is total (no operation in it can
throw on a value that passed the filter), so its try/catch never yields a
`null` for the final filter to drop. -/

/-- One message of a stored session after the defaulting map (`new Date`
values are kept as the raw timestamp, `none` standing for the fresh
`new Date()` default). -/
structure LoadedMessage where
  id : Json
  content : Json
  type : Json
  role : Json
  timestamp : Option Json

/-- `msg => ({id: msg.id || msg-now, content: msg.content || '', type:
msg.type || 'user', role: msg.role || (msg.type === 'user' ? 'user' :
'ai'), timestamp: ...})`. -/
def convertMessage (now : Nat) (m : Json) : LoadedMessage :=
  let idv := (m.getField "id").getD .null
  let contentv := (m.getField "content").getD .null
  let typev := (m.getField "type").getD .null
  let rolev := (m.getField "role").getD .null
  { id := if idv.truthy then idv else .str ("msg-" ++ toString now)
    content := if contentv.truthy then contentv else .str ""
    type := if typev.truthy then typev else .str "user"
    role := if rolev.truthy then rolev
            else if jsStrictEqStr typev "user" then .str "user" else .str "ai"
    timestamp :=
      match m.getField "timestamp" with
      | some t => if t.truthy then some t else none
      | none => none }

/-- A stored session after the defaulting map. -/
structure LoadedSession where
  id : String
  user_id : Json
  title : Json
  timestamp : Json
  messages : List LoadedMessage

/-- The per-session map of `loadChatHistory`: `id.toString()`, defaulted
title and timestamp (`nowIso` models `new Date().toISOString()`), and the
message list mapped when it is an array, `[]` otherwise. -/
def convertSession (now : Nat) (nowIso : String) (s : Json) : LoadedSession :=
  let titlev := (s.getField "title").getD .null
  let tsv := (s.getField "timestamp").getD .null
  { id := ((s.getField "id").getD .null).jsToString
    user_id := (s.getField "user_id").getD .null
    title := if titlev.truthy then titlev else .str "Untitled Chat"
    timestamp := if tsv.truthy then tsv else .str nowIso
    messages :=
      match (s.getField "messages").getD .null with
      | .arr xs => xs.map (convertMessage now)
      | _ => [] }

/-- The filter predicate of `loadChatHistory`: `session.id` and
`session.user_id` truthy, and `session.user_id === parseInt(user.id)`
(strict equality with `NaN` is false for every value). -/
def sessionKept (uidNum : Option Int) (s : Json) : Bool :=
  ((s.getField "id").getD .null).truthy
    && ((s.getField "user_id").getD .null).truthy
    && (match uidNum with
        | some k => jsStrictEqNum ((s.getField "user_id").getD .null) k
        | none => false)

/-- `loadChatHistory` over a well-formed (array) response body: the rows
that pass the ownership filter, mapped to local sessions. -/
def loadChatHistory (userId : String) (now : Nat) (nowIso : String)
    (data : List Json) : List LoadedSession :=
  (data.filter (sessionKept (parseIntJS userId))).map (convertSession now nowIso)

/-! ### Concrete fixtures used by witnesses and the C7 property -/

/-- The C7 assistant message with `affected_rows = 1` (the braces and
backticks of the original text are written with hex escapes). -/
def statusContent1 : String :=
  "SQL: \x60SELECT 1\x60\nOutput: \x7b\x22type\x22:\x22status\x22,\x22message\x22:\x22OK\x22,\x22affected_rows\x22:1\x7d"

/-- The C7 assistant message with `affected_rows = 3`. -/
def statusContent3 : String :=
  "SQL: \x60SELECT 1\x60\nOutput: \x7b\x22type\x22:\x22status\x22,\x22message\x22:\x22OK\x22,\x22affected_rows\x22:3\x7d"

/-- A well-formed stored session row owned by user 7. -/
def sampleGoodRow : Json :=
  .obj [("id", .num 1 0), ("user_id", .num 7 0), ("title", .str "t"), ("messages", .arr [])]

/-- A malformed stored session row: its `id` is missing. -/
def sampleBadRow : Json := .obj [("user_id", .num 7 0)]

/-! ## Theorems -/

/-- Helper: the first message with a given id, behind a prefix free of that
id, is found with exactly that prefix. -/
theorem splitAtId_of_prefix (mid : String) (pre : List Message) (M : Message)
    (post : List Message) (hid : ∀ m ∈ pre, m.id ≠ mid) (hM : M.id = mid) :
    splitAtId mid (pre ++ M :: post) = some (pre, M) := by
  induction pre with
  | nil => simp [splitAtId, hM]
  | cons a t ih =>
      have ha : a.id ≠ mid := hid a (List.mem_cons_self a t)
      have ht : ∀ m ∈ t, m.id ≠ mid := fun m hm => hid m (List.mem_cons_of_mem a hm)
      simp [splitAtId, ha, ih ht]

/-- Helper: strict number equality holds only on a number value. -/
theorem jsStrictEqNum_eq {v : Json} {n : Int} (h : jsStrictEqNum v n = true) :
    ∃ mant exp, v = .num mant exp ∧ jnumEqInt mant exp n = true := by
  cases v <;> simp [jsStrictEqNum] at h
  case num m e => exact ⟨m, e, rfl, by simpa [jsStrictEqNum] using h⟩

/-- C1: for every non-empty trimmed string submitted while a user is
authenticated, `handleSendMessage` appends exactly one user message with
that content and then exactly one terminal message — an assistant message
exactly when the database is connected and the chat request returned 2xx,
an error-typed message otherwise (not connected, non-2xx, or network
failure). -/
theorem handleSendMessage_one_user_one_terminal
    (uid : Nat) (isConnected : Bool) (currentChatId : Option String)
    (messages : List Message) (s : String) (now : Nat) (net : ChatOutcome)
    (htrim : jsTrim s = s) (hne : s ≠ "") :
    ∃ t : Message,
      (handleSendMessage (some uid) isConnected currentChatId messages s now net).messages
        = messages ++ [⟨toString now, s, .user, some "user"⟩, t]
      ∧ (t.type = .assistant ∨ t.type = .error)
      ∧ (t.type = .assistant ↔ isConnected = true ∧ ∃ b p, net = .ok b p) := by
  have hcond : ¬(s = "" ∨ jsTrim s = "") := by
    rintro (h | h)
    · exact hne h
    · exact hne (htrim ▸ h)
  cases isConnected with
  | false =>
      refine ⟨⟨toString (now + 1), dbErrorText, .error, none⟩, ?_, Or.inr rfl, ?_⟩
      · simp [handleSendMessage, hcond]
      · simp
  | true =>
      cases net with
      | ok b p =>
          refine ⟨⟨toString (now + 2), assistantContent b p, .assistant, some "ai"⟩,
            ?_, Or.inl rfl, ?_⟩
          · simp [handleSendMessage, hcond]
          · simp
      | httpFail st =>
          refine ⟨⟨toString (now + 2), sendFailText, .error, none⟩, ?_, Or.inr rfl, ?_⟩
          · simp [handleSendMessage, hcond]
          · simp
      | netFail =>
          refine ⟨⟨toString (now + 2), sendFailText, .error, none⟩, ?_, Or.inr rfl, ?_⟩
          · simp [handleSendMessage, hcond]
          · simp

/-- C1 witness: the theorem discharged at a concrete successful turn. -/
theorem handleSendMessage_one_user_one_terminal_witness :
    ∃ t : Message,
      (handleSendMessage (some 1) true none [] "hi" 5 (.ok true "resp")).messages
        = [] ++ [⟨toString 5, "hi", .user, some "user"⟩, t]
      ∧ (t.type = .assistant ∨ t.type = .error)
      ∧ (t.type = .assistant ↔ true = true ∧ ∃ b p, ChatOutcome.ok true "resp" = .ok b p) :=
  handleSendMessage_one_user_one_terminal 1 true none [] "hi" 5 (.ok true "resp")
    (by decide) (by decide)

/-- C2: editing the most recent user message `M` (its id unique, every
later message non-user) with new content `c` yields exactly the messages
that preceded `M`, a new version of `M` carrying `c`, and one terminal
message built from the freshly requested chat outcome (`editTerminal net
now`), never from the original turn; everything that followed `M` is
discarded. -/
theorem handleEditMessage_rewrites_history
    (uid now : Nat) (currentChatId : Option String) (pre post : List Message)
    (M : Message) (c : String) (net : ChatOutcome)
    (hid : ∀ m ∈ pre, m.id ≠ M.id)
    (huser : effectiveType M = .user)
    (_hlast : ∀ m ∈ post, effectiveType m ≠ .user) :
    (handleEditMessage (some uid) currentChatId (pre ++ M :: post) M.id c now net).messages
      = pre ++ [{ M with content := c, id := toString now }, editTerminal net now] := by
  have hsplit := splitAtId_of_prefix M.id pre M post hid rfl
  cases net <;> simp [handleEditMessage, hsplit, huser, editTerminal]

/-- C2 witness: the theorem discharged at a concrete transcript of one
earlier exchange followed by the edited question. -/
theorem handleEditMessage_rewrites_history_witness :
    (handleEditMessage (some 1) (some "c1")
        ([⟨"m1", "old q", .user, some "user"⟩] ++ ⟨"m2", "new q", .user, some "user"⟩
          :: [⟨"m3", "reply", .assistant, some "ai"⟩])
        (Message.mk "m2" "new q" .user (some "user")).id "edited q" 9 (.ok true "fresh")).messages
      = [⟨"m1", "old q", .user, some "user"⟩]
        ++ [{ Message.mk "m2" "new q" .user (some "user") with
                content := "edited q", id := toString 9 },
            editTerminal (.ok true "fresh") 9] :=
  handleEditMessage_rewrites_history 1 9 (some "c1")
    [⟨"m1", "old q", .user, some "user"⟩] [⟨"m3", "reply", .assistant, some "ai"⟩]
    ⟨"m2", "new q", .user, some "user"⟩ "edited q" (.ok true "fresh")
    (by decide) (by decide) (by decide)

/-- C6: the edit operation as exposed by the interface leaves the page
state untouched (same transcript, no save, no chat request) whenever the
target message is not user-typed or is not the latest user message; and
independently, `handleEditMessage` itself refuses any message whose
effective type is not `'user'`. -/
theorem edit_only_latest_user_message
    (user : Option Nat) (currentChatId : Option String) (messages : List Message)
    (mid c : String) (now : Nat) (net : ChatOutcome)
    (h : ∀ m ∈ messages, m.id = mid →
          (effectiveType m ≠ .user ∨ lastUserMessageId messages ≠ some mid)) :
    uiEditMessage user currentChatId messages mid c now net = ⟨messages, none, false⟩
    ∧ (∀ prefixMsgs m, splitAtId mid messages = some (prefixMsgs, m) →
        effectiveType m ≠ .user →
        handleEditMessage user currentChatId messages mid c now net
          = ⟨messages, none, false⟩) := by
  constructor
  · rw [uiEditMessage]
    cases hf : messages.find? (fun m => decide (m.id = mid)) with
    | none => rfl
    | some m =>
        have hmem : m ∈ messages := List.mem_of_find?_eq_some hf
        have hpm : (fun m : Message => decide (m.id = mid)) m = true :=
          List.find?_some (p := fun m : Message => decide (m.id = mid)) hf
        have hid : m.id = mid := of_decide_eq_true hpm
        have hgate := h m hmem hid
        have hneg : ¬(effectiveType m = MsgType.user ∧ lastUserMessageId messages = some mid
            ∧ jsTrim c ≠ "") := by
          rintro ⟨h1, h2, _⟩
          rcases hgate with hg | hg
          · exact hg h1
          · exact hg h2
        simp [hneg]
  · intro prefixMsgs m hsplit hne
    rw [handleEditMessage]
    by_cases hu : user.isNone = true
    · rw [if_pos hu]
    · rw [if_neg hu]
      simp only [hsplit]
      rw [if_pos hne]

/-- C6 witness: the theorem discharged on a transcript where `m1` is a
user message but not the latest one. -/
theorem edit_only_latest_user_message_witness :
    uiEditMessage (some 1) none
        [⟨"m1", "q1", .user, some "user"⟩, ⟨"m2", "a1", .assistant, some "ai"⟩,
         ⟨"m3", "q2", .user, some "user"⟩] "m1" "changed" 7 (.ok true "x")
      = ⟨[⟨"m1", "q1", .user, some "user"⟩, ⟨"m2", "a1", .assistant, some "ai"⟩,
          ⟨"m3", "q2", .user, some "user"⟩], none, false⟩
    ∧ (∀ prefixMsgs m,
        splitAtId "m1"
            [⟨"m1", "q1", .user, some "user"⟩, ⟨"m2", "a1", .assistant, some "ai"⟩,
             ⟨"m3", "q2", .user, some "user"⟩] = some (prefixMsgs, m) →
        effectiveType m ≠ .user →
        handleEditMessage (some 1) none
            [⟨"m1", "q1", .user, some "user"⟩, ⟨"m2", "a1", .assistant, some "ai"⟩,
             ⟨"m3", "q2", .user, some "user"⟩] "m1" "changed" 7 (.ok true "x")
          = ⟨[⟨"m1", "q1", .user, some "user"⟩, ⟨"m2", "a1", .assistant, some "ai"⟩,
              ⟨"m3", "q2", .user, some "user"⟩], none, false⟩) :=
  edit_only_latest_user_message (some 1) none
    [⟨"m1", "q1", .user, some "user"⟩, ⟨"m2", "a1", .assistant, some "ai"⟩,
     ⟨"m3", "q2", .user, some "user"⟩] "m1" "changed" 7 (.ok true "x") (by decide)

/-- C3: whenever the `Output:` regex does not match, or its capture does
not parse as JSON, `parseBackendResponse` returns the null payload (and a
null sql) without failing, and the renderer falls back to the raw message
text. -/
theorem parseBackendResponse_malformed_falls_back
    (content : String)
    (h : findOutputCapture content.toList = none
         ∨ ∃ cs, findOutputCapture content.toList = some cs
             ∧ jsonParse (String.mk cs) = none) :
    parseBackendResponse content = ⟨none, none⟩
    ∧ renderAssistant content = .raw content := by
  have hp : parseBackendResponse content = ⟨none, none⟩ := by
    rcases h with h | ⟨cs, h1, h2⟩
    · have h' : findOutputCapture content.data = none := h
      simp [parseBackendResponse, h']
    · have h1' : findOutputCapture content.data = some cs := h1
      simp [parseBackendResponse, h1', h2]
  exact ⟨hp, by simp [renderAssistant, hp]⟩

/-- C3 witness: a message whose `Output:` label is followed by malformed
JSON parses to the null payload and renders raw. -/
theorem parseBackendResponse_malformed_falls_back_witness :
    parseBackendResponse "Output: \x7boops\x7d" = ⟨none, none⟩
    ∧ renderAssistant "Output: \x7boops\x7d" = .raw "Output: \x7boops\x7d" :=
  parseBackendResponse_malformed_falls_back "Output: \x7boops\x7d"
    (Or.inr ⟨"\x7boops\x7d".toList, rfl, rfl⟩)

/-- C7: the fixture with `affected_rows = 1` parses to `sql = "SELECT 1"`
and a status payload with `affected_rows = 1` rendered with the singular
phrase `(1 row)`; the `affected_rows = 3` fixture renders `(3 rows)`; and
for every numeric count the phrase is singular exactly when the count
equals 1. -/
theorem parse_status_render_row_count :
    (parseBackendResponse statusContent1).sql = some "SELECT 1"
    ∧ ((parseBackendResponse statusContent1).output.bind
        (fun o => o.getField "affected_rows")) = some (.num 1 0)
    ∧ renderAssistant statusContent1 = .statusAlert (some (.str "OK")) (some "(1 row)")
    ∧ renderAssistant statusContent3 = .statusAlert (some (.str "OK")) (some "(3 rows)")
    ∧ (∀ mant exp : Int,
        rowCountSuffix (.num mant exp) = "(" ++ jsNumToString mant exp ++ " row)"
          ↔ jnumEqInt mant exp 1 = true) := by
  refine ⟨rfl, rfl, rfl, rfl, fun mant exp => ?_⟩
  cases hb : jnumEqInt mant exp 1 with
  | false =>
      have hs : jsStrictEqNum (.num mant exp) 1 = false := by
        simpa [jsStrictEqNum] using hb
      constructor
      · intro h
        exfalso
        have h' : "(" ++ jsNumToString mant exp ++ " row" ++ "s" ++ ")"
            = "(" ++ jsNumToString mant exp ++ " row)" := by
          simpa [rowCountSuffix, hs, Json.jsToString] using h
        have hlen := congrArg String.length h'
        have l1 : "(".length = 1 := rfl
        have l2 : " row".length = 4 := rfl
        have l3 : "s".length = 1 := rfl
        have l4 : ")".length = 1 := rfl
        have l5 : " row)".length = 5 := rfl
        simp only [String.length_append, l1, l2, l3, l4, l5] at hlen
        omega
      · intro h
        exact Bool.noConfusion h
  | true =>
      have hs : jsStrictEqNum (.num mant exp) 1 = true := by
        simpa [jsStrictEqNum] using hb
      refine ⟨fun _ => rfl, fun _ => ?_⟩
      simp only [rowCountSuffix, hs, if_true, Json.jsToString]
      rw [String.append_empty, String.append_assoc]
      exact congrArg (fun z => "(" ++ jsNumToString mant exp ++ z) rfl

/-- C4: the session list `loadChatHistory` builds never contains a session
whose owner is not strictly equal to `parseInt(user.id)`, and a malformed
row (falsy `id` or falsy `user_id`) anywhere in the response is dropped
individually, leaving the rest of the load untouched. -/
theorem loadChatHistory_owner_and_filtering
    (userId : String) (now : Nat) (nowIso : String) (xs ys : List Json) (bad : Json)
    (hbad : ((bad.getField "id").getD .null).truthy = false
            ∨ ((bad.getField "user_id").getD .null).truthy = false) :
    (∀ s ∈ loadChatHistory userId now nowIso (xs ++ bad :: ys),
        ∃ k : Int, parseIntJS userId = some k ∧ jsStrictEqNum s.user_id k = true)
    ∧ loadChatHistory userId now nowIso (xs ++ bad :: ys)
        = loadChatHistory userId now nowIso (xs ++ ys) := by
  have hbad' : sessionKept (parseIntJS userId) bad = false := by
    rcases hbad with h | h <;> simp [sessionKept, h]
  constructor
  · intro s hs
    rw [loadChatHistory] at hs
    rcases List.mem_map.1 hs with ⟨j, hj, rfl⟩
    rcases List.mem_filter.1 hj with ⟨hjmem, hkept⟩
    simp only [sessionKept, Bool.and_eq_true] at hkept
    obtain ⟨⟨h1, h2⟩, h3⟩ := hkept
    cases hu : parseIntJS userId with
    | none => rw [hu] at h3; cases h3
    | some k =>
        rw [hu] at h3
        refine ⟨k, rfl, ?_⟩
        have huid : (convertSession now nowIso j).user_id
            = (j.getField "user_id").getD .null := rfl
        rw [huid]
        exact h3
  · simp [loadChatHistory, List.filter_append, hbad']

/-- C4 witness: the theorem discharged on one good row and one row with a
missing id. -/
theorem loadChatHistory_owner_and_filtering_witness :
    (∀ s ∈ loadChatHistory "7" 0 "ts" ([sampleGoodRow] ++ sampleBadRow :: []),
        ∃ k : Int, parseIntJS "7" = some k ∧ jsStrictEqNum s.user_id k = true)
    ∧ loadChatHistory "7" 0 "ts" ([sampleGoodRow] ++ sampleBadRow :: [])
        = loadChatHistory "7" 0 "ts" ([sampleGoodRow] ++ []) :=
  loadChatHistory_owner_and_filtering "7" 0 "ts" [sampleGoodRow] [] sampleBadRow
    (Or.inl (by decide))

/-- C5 counterexample: on a 403 the sidebar delete keeps the local entry
and reports only through `console.error` — no user-facing notification is
shown, contradicting "the failure is surfaced to the user". -/
theorem sidebar_delete_403_console_only :
    sidebarHandleDeleteChat (some 7) [⟨"42", some 7, "t", []⟩] "42" (.httpFail 403)
      = ⟨false, true, false⟩ := by decide

/-- C5 (amended): for an authenticated user and an existing entry, the
sidebar delete removes the entry locally on every outcome of the DELETE
fetch (2xx, 404, other statuses, network failure) except 403, on which the
local entry is kept and the failure is logged to the developer console
(`console.error('Permission denied')`) with no user-facing notification. -/
theorem sidebar_delete_local_removal
    (u : Int) (history : List ChatSessionL) (chatId : String) (outcome : DeleteOutcome)
    (hfound : (history.find? (fun chat => decide (chat.id = chatId))).isSome = true) :
    (outcome ≠ .httpFail 403 →
      (sidebarHandleDeleteChat (some u) history chatId outcome).removedLocally = true)
    ∧ sidebarHandleDeleteChat (some u) history chatId (.httpFail 403)
        = ⟨false, true, false⟩ := by
  have hnone : (history.find? (fun chat => decide (chat.id = chatId))).isNone = false := by
    rcases Option.isSome_iff_exists.1 hfound with ⟨c, hc⟩
    simp [hc]
  constructor
  · intro hne
    cases outcome with
    | ok => simp [sidebarHandleDeleteChat, hnone]
    | netFail => simp [sidebarHandleDeleteChat, hnone]
    | httpFail status =>
        by_cases h404 : status = 404
        · simp [sidebarHandleDeleteChat, hnone, h404]
        · have h403 : status ≠ 403 := fun h => hne (by rw [h])
          simp [sidebarHandleDeleteChat, hnone, h404, h403]
  · simp [sidebarHandleDeleteChat, hnone]

/-- C5 witness: the amended theorem discharged at a concrete history on a
successful delete. -/
theorem sidebar_delete_local_removal_witness :
    (DeleteOutcome.ok ≠ .httpFail 403 →
      (sidebarHandleDeleteChat (some 7) [⟨"42", some 7, "t", []⟩] "42" .ok).removedLocally
        = true)
    ∧ sidebarHandleDeleteChat (some 7) [⟨"42", some 7, "t", []⟩] "42" (.httpFail 403)
        = ⟨false, true, false⟩ :=
  sidebar_delete_local_removal 7 [⟨"42", some 7, "t", []⟩] "42" .ok (by decide)

/-- C8: when the DELETE fetch succeeds, the dashboard delete removes the
session from the visible chat-history list; when the deleted session was
the active conversation, the transcript is cleared and the
active-conversation pointer reset to `null`, and otherwise both are left
unchanged. -/
theorem dashDeleteChat_removes_and_clears
    (uid : Nat) (st : DeleteState) (chatId : String) :
    (∀ s ∈ (dashHandleDeleteChat (some uid) st chatId .ok).chatHistory, s.id ≠ chatId)
    ∧ (dashHandleDeleteChat (some uid) st chatId .ok).chatHistory
        = st.chatHistory.filter (fun chat => decide (chat.id ≠ chatId))
    ∧ (st.currentChatId = some chatId →
        (dashHandleDeleteChat (some uid) st chatId .ok).currentChatId = none
        ∧ (dashHandleDeleteChat (some uid) st chatId .ok).messages = [])
    ∧ (st.currentChatId ≠ some chatId →
        (dashHandleDeleteChat (some uid) st chatId .ok).currentChatId = st.currentChatId
        ∧ (dashHandleDeleteChat (some uid) st chatId .ok).messages = st.messages) := by
  have hmem : ∀ s ∈ st.chatHistory.filter (fun chat => decide (chat.id ≠ chatId)),
      s.id ≠ chatId := by
    intro s hs
    exact of_decide_eq_true
      (List.of_mem_filter (p := fun chat : ChatSessionL => decide (chat.id ≠ chatId)) hs)
  by_cases hc : st.currentChatId = some chatId
  · have hr : dashHandleDeleteChat (some uid) st chatId .ok
        = ⟨st.chatHistory.filter (fun chat => decide (chat.id ≠ chatId)), none, []⟩ := by
      simp [dashHandleDeleteChat, hc]
    rw [hr]
    exact ⟨hmem, rfl, fun _ => ⟨rfl, rfl⟩, fun hne => absurd hc hne⟩
  · have hr : dashHandleDeleteChat (some uid) st chatId .ok
        = ⟨st.chatHistory.filter (fun chat => decide (chat.id ≠ chatId)),
            st.currentChatId, st.messages⟩ := by
      simp [dashHandleDeleteChat, hc]
    rw [hr]
    exact ⟨hmem, rfl, fun h => absurd h hc, fun _ => ⟨rfl, rfl⟩⟩

/-- C9 counterexample: the modal variant the dashboard imports submits the
connect request although the port does not parse as a number at all
(`parseInt("abc") = NaN`), so "port not a number in 1–65535 implies no
network request" fails on it. -/
theorem modalConnect_submits_invalid_port :
    parseIntJS "abc" = none
    ∧ modalHandleConnect ⟨"h", "abc", "u", "", "d"⟩ = some ⟨"h", none, "u", "", "d"⟩ :=
  ⟨rfl, rfl⟩

/-- C9 (amended): both modal variants refuse to submit when host, username
or database name trims empty; the 1–65535 port-range gate holds in the
enhanced variant (`src/unnamed/part_002`), whose request is issued exactly
when all four checks pass, but not in
`components/dashboard/DatabaseConnectionModal.tsx`, which submits
`parseInt(port)` unchecked. -/
theorem connectForm_validation_amended :
    (∀ f : ConnectForm,
        (jsTrim f.host = "" ∨ jsTrim f.user = "" ∨ jsTrim f.database = "") →
          modalHandleConnect f = none)
    ∧ (∀ f : ConnectForm, (enhancedHandleConnect f).isSome = true ↔
        (jsTrim f.host ≠ "" ∧ jsTrim f.user ≠ "" ∧ jsTrim f.database ≠ ""
          ∧ ∃ p, parseIntJS f.port = some p ∧ 1 ≤ p ∧ p ≤ 65535)) := by
  constructor
  · intro f h
    rw [modalHandleConnect, if_pos h]
  · intro f
    by_cases h1 : jsTrim f.host = ""
    · simp [enhancedHandleConnect, h1]
    by_cases h2 : jsTrim f.user = ""
    · simp [enhancedHandleConnect, h1, h2]
    by_cases h3 : jsTrim f.database = ""
    · simp [enhancedHandleConnect, h1, h2, h3]
    cases hp : parseIntJS f.port with
    | none => simp [enhancedHandleConnect, h1, h2, h3, hp]
    | some p =>
        by_cases hr : p < 1 ∨ p > 65535
        · have hn : enhancedHandleConnect f = none := by
            simp [enhancedHandleConnect, h1, h2, h3, hp, hr]
          rw [hn]
          constructor
          · intro hfalse
            cases hfalse
          · rintro ⟨-, -, -, q, hq, hq1, hq2⟩
            injection hq with hq
            exfalso
            rcases hr with hr | hr <;> omega
        · push_neg at hr
          have hs : enhancedHandleConnect f
              = some ⟨jsTrim f.host, some p, jsTrim f.user, f.password, jsTrim f.database⟩ := by
            have hneg : ¬(p < 1 ∨ p > 65535) := by omega
            simp [enhancedHandleConnect, h1, h2, h3, hp, hneg]
          rw [hs]
          exact ⟨fun _ => ⟨h1, h2, h3, p, rfl, hr.1, hr.2⟩, fun _ => rfl⟩

/-- C10: a failed send turn is persisted too — when the database is not
connected or the chat request fails, `handleSendMessage` still calls
`saveChatToBackend` with the transcript that includes the error bubble
(creating the session when the conversation had no id yet, updating it
otherwise) — while a failed edit turn appends its error bubble without
issuing any save. -/
theorem failed_turn_persistence
    (uid now : Nat) (ccid : Option String) (net : ChatOutcome)
    (conn : Bool) (messages : List Message) (s : String)
    (hfail : conn = false ∨ ∀ b p, net ≠ .ok b p)
    (htrim : jsTrim s = s) (hne : s ≠ "") :
    ((handleSendMessage (some uid) conn ccid messages s now net).save
        = some ⟨ccid.getD (toString now), chatTitleOf s,
                (handleSendMessage (some uid) conn ccid messages s now net).messages,
                ccid.isNone⟩
      ∧ ∃ t : Message, t.type = .error
          ∧ (handleSendMessage (some uid) conn ccid messages s now net).messages
              = messages ++ [⟨toString now, s, .user, some "user"⟩, t])
    ∧ ((∀ b p, net ≠ .ok b p) →
        ∀ (pre post : List Message) (M : Message) (c : String),
          (∀ m ∈ pre, m.id ≠ M.id) → effectiveType M = .user →
          (handleEditMessage (some uid) ccid (pre ++ M :: post) M.id c now net).save = none
          ∧ ∃ e : Message, e.type = .error
              ∧ (handleEditMessage (some uid) ccid (pre ++ M :: post) M.id c now net).messages
                  = pre ++ [{ M with content := c, id := toString now }, e]) := by
  have hcond : ¬(s = "" ∨ jsTrim s = "") := by
    rintro (h | h)
    · exact hne h
    · exact hne (htrim ▸ h)
  constructor
  · cases conn with
    | false =>
        refine ⟨?_, ⟨⟨toString (now + 1), dbErrorText, .error, none⟩, rfl, ?_⟩⟩ <;>
          simp [handleSendMessage, hcond]
    | true =>
        rcases hfail with hconn | hnet
        · cases hconn
        · cases net with
          | ok b p => exact absurd rfl (hnet b p)
          | httpFail st =>
              refine ⟨?_, ⟨⟨toString (now + 2), sendFailText, .error, none⟩, rfl, ?_⟩⟩ <;>
                simp [handleSendMessage, hcond]
          | netFail =>
              refine ⟨?_, ⟨⟨toString (now + 2), sendFailText, .error, none⟩, rfl, ?_⟩⟩ <;>
                simp [handleSendMessage, hcond]
  · intro hnet pre post M c hid huser
    have hsplit := splitAtId_of_prefix M.id pre M post hid rfl
    cases net with
    | ok b p => exact absurd rfl (hnet b p)
    | httpFail st =>
        refine ⟨?_, ⟨⟨toString (now + 1), editFailText, .error, none⟩, rfl, ?_⟩⟩ <;>
          simp [handleEditMessage, hsplit, huser]
    | netFail =>
        refine ⟨?_, ⟨⟨toString (now + 1), editFailText, .error, none⟩, rfl, ?_⟩⟩ <;>
          simp [handleEditMessage, hsplit, huser]

/-- C10 witness: the theorem discharged at a network failure, for the send
turn of a fresh conversation and for the edit of a concrete user
message. -/
theorem failed_turn_persistence_witness :
    ((handleSendMessage (some 1) true none [] "hi" 5 .netFail).save
        = some ⟨(none : Option String).getD (toString 5), chatTitleOf "hi",
                (handleSendMessage (some 1) true none [] "hi" 5 .netFail).messages,
                (none : Option String).isNone⟩
      ∧ ∃ t : Message, t.type = .error
          ∧ (handleSendMessage (some 1) true none [] "hi" 5 .netFail).messages
              = [] ++ [⟨toString 5, "hi", .user, some "user"⟩, t])
    ∧ ((∀ b p, ChatOutcome.netFail ≠ .ok b p) →
        ∀ (pre post : List Message) (M : Message) (c : String),
          (∀ m ∈ pre, m.id ≠ M.id) → effectiveType M = .user →
          (handleEditMessage (some 1) none (pre ++ M :: post) M.id c 5 .netFail).save = none
          ∧ ∃ e : Message, e.type = .error
              ∧ (handleEditMessage (some 1) none (pre ++ M :: post) M.id c 5 .netFail).messages
                  = pre ++ [{ M with content := c, id := toString 5 }, e]) :=
  failed_turn_persistence 1 5 none .netFail true [] "hi"
    (Or.inr (fun b p h => ChatOutcome.noConfusion h)) (by decide) (by decide)

end QueryGenie
